import Mathlib

/-!
Shallow embedding of the Commander deck validation handler
(`handleValidateDeck` in the MCP server source) together with the decklist
parsing it performs, and proofs checking the specification's claims about it.

The handler is modelled faithfully: the raw decklist is first handed to
`encoding/json` (modelled at the JSON-value level per that package's
documented semantics), falling back to line-based text parsing on a decode
error; the report is modelled as the ordered list of strings written to the
`strings.Builder`, joined at the end.  The iteration order of the Go map
`cardCounts` is unspecified, so the duplicate-collecting loop takes the
enumeration order of the keys as an explicit parameter.
-/

set_option maxHeartbeats 1000000
set_option maxRecDepth 100000

/-- JSON values, as produced by the `encoding/json` scanner on a valid
JSON document. -/
inductive Json where
  | null : Json
  | bool : Bool → Json
  | num : Int → Json
  | str : String → Json
  | arr : List Json → Json
  | obj : List (String × Json) → Json

/-- Whether a JSON value is a string. -/
def Json.isStr : Json → Bool
  | .str _ => true
  | _ => false

/-- Whether a JSON value is the literal null. -/
def Json.isNull : Json → Bool
  | .null => true
  | _ => false

/-- The Go string stored into a `[]string` slot for a decoded array element:
a JSON string is stored as itself; any other element leaves the zero value
`""` in place (for null this is a documented no-op, for other types the
decoder records an `UnmarshalTypeError`, skips the value, and continues). -/
def jsonElemToString : Json → String
  | .str s => s
  | _ => ""

/-- Models `json.Unmarshal(data, &cardNames)` for `cardNames : []string`,
applied to the JSON value `data` parses to, per the documented semantics of
`encoding/json`: the first component is true iff no error is returned, the
second is the content of the slice afterwards.  JSON null is a successful
no-op leaving the nil slice; a JSON array decodes element-wise, erroring
(but retaining the partially decoded slice) iff some element is neither a
string nor null; any other top-level value is an `UnmarshalTypeError` that
leaves the slice untouched. -/
def goUnmarshalStringArray : Json → Bool × List String
  | .null => (true, [])
  | .arr vs => (vs.all (fun v => v.isStr || v.isNull), vs.map jsonElemToString)
  | _ => (false, [])

/-- Models `unicode.IsSpace`, used by `strings.TrimSpace` and by fmt's
scanner: the full Unicode White_Space property — the Latin-1 white space
characters plus U+1680, U+2000..U+200A, U+2028, U+2029, U+202F, U+205F and
U+3000. -/
def isSpaceChar (c : Char) : Bool :=
  c == ' ' || c == '\t' || c == '\n' || c == '\x0B' || c == '\x0C' || c == '\r' ||
    c == '\x85' || c == '\xA0' || c == '\u1680' ||
    ('\u2000' ≤ c && c ≤ '\u200A') || c == '\u2028' || c == '\u2029' ||
    c == '\u202F' || c == '\u205F' || c == '\u3000'

/-- Models `strings.TrimSpace`: drop white space from both ends. -/
def trimChars (l : List Char) : List Char :=
  ((l.dropWhile isSpaceChar).reverse.dropWhile isSpaceChar).reverse

/-- Models `strings.Split` on a one-character separator. -/
def splitOnChar (sep : Char) : List Char → List (List Char)
  | [] => [[]]
  | c :: rest =>
    match splitOnChar sep rest with
    | [] => [[]]
    | h :: t => if c == sep then [] :: h :: t else (c :: h) :: t

/-- Models `strings.SplitN(line, " ", 2)`: everything before the first
space, and — when a space exists — everything after it. -/
def splitFirstSpace : List Char → List Char × Option (List Char)
  | [] => ([], none)
  | c :: rest =>
    if c == ' ' then ([], some rest)
    else
      let r := splitFirstSpace rest
      (c :: r.fst, r.snd)

/-- ASCII decimal digit test. -/
def isAsciiDigit (c : Char) : Bool := '0' ≤ c && c ≤ '9'

/-- The numeric value of a decimal digit run. -/
def digitsVal (ds : List Char) : Nat :=
  ds.foldl (fun acc c => acc * 10 + (c.toNat - '0'.toNat)) 0

/-- Models whether `fmt.Sscanf(s, "%d", new(int))` returns a nil error:
after skipping leading white space, an optional sign must be followed by at
least one decimal digit, and the value of the maximal digit run (the token
fmt's scanner hands to `strconv.ParseInt(tok, 10, 64)`) must fit in a
signed 64-bit integer — the scanner reports an error on overflow.
Trailing unconsumed input is not an error for `Sscanf`. -/
def sscanfDOk (l : List Char) : Bool :=
  let l1 := l.dropWhile isSpaceChar
  let neg : Bool := match l1 with
    | c :: _ => c == '-'
    | [] => false
  let l2 := match l1 with
    | c :: rest => if c == '+' || c == '-' then rest else l1
    | [] => []
  let ds := l2.takeWhile isAsciiDigit
  if ds = [] then false
  else if neg then digitsVal ds ≤ 2 ^ 63
  else digitsVal ds ≤ 2 ^ 63 - 1

/-- One iteration of the text-mode loop in `handleValidateDeck`: trim the
line, skip it when empty, otherwise strip a leading quantity token (a first
space-delimited part accepted by `Sscanf %d`) and trim the rest, else keep
the whole trimmed line. -/
def parseLineEntry (line : List Char) : Option String :=
  if trimChars line = [] then none
  else
    match splitFirstSpace (trimChars line) with
    | (p1, some p2) =>
      if sscanfDOk p1 then some (String.mk (trimChars p2))
      else some (String.mk (trimChars line))
    | (_, none) => some (String.mk (trimChars line))

/-- The text-mode decklist parse: split on newlines and run
`parseLineEntry` on every line. -/
def parseTextMode (raw : String) : List String :=
  (splitOnChar '\n' raw.data).filterMap parseLineEntry

/-- The decklist parse of `handleValidateDeck`.  `decklistJson` is the JSON
value `raw` parses to when `raw` is valid JSON (`encoding/json` validates
the whole input before decoding), and `none` otherwise.  On a decode error
the text-mode entries are appended to whatever the failed decode left in
`cardNames`. -/
def parseDecklist (decklistJson : Option Json) (raw : String) : List String :=
  match decklistJson with
  | some v =>
    let r := goUnmarshalStringArray v
    if r.fst then r.snd else r.snd ++ parseTextMode raw
  | none => parseTextMode raw

/-- The resolved commander data used by the handler: name, type line,
oracle text, color identity, and the `legalities.commander` entry of the
per-format legality map. -/
structure Card where
  name : String
  typeLine : String
  oracleText : String
  colorIdentity : List String
  legalityCommander : String

/-- Boolean substring test on character lists (models `strings.Contains`). -/
def isInfixB (pat hay : List Char) : Bool :=
  (List.range (hay.length + 1)).any fun i => pat.isPrefixOf (hay.drop i)

/-- Models `strings.Contains(hay, pat)`. -/
def strContains (hay pat : String) : Bool := isInfixB pat.data hay.data

/-- `strings.ToLower`, modelled on the ASCII range (the substrings the
handler searches for are ASCII). -/
def strToLower (s : String) : String := String.mk (s.data.map Char.toLower)

/-- The commander-eligibility heuristic of the handler: the lower-cased
type line contains "legendary", or the lower-cased oracle text contains
"can be your commander". -/
def canBeCommander (c : Card) : Bool :=
  strContains (strToLower c.typeLine) "legendary" ||
    strContains (strToLower c.oracleText) "can be your commander"

/-- The six basic-land names exempted from the singleton rule. -/
def basicLands : List String :=
  ["plains", "island", "swamp", "mountain", "forest", "wastes"]

/-- The key under which a card name is tallied:
`strings.ToLower(strings.TrimSpace(name))` (lower-casing modelled on the
ASCII range, which covers every name the checks compare against). -/
def normKey (s : String) : String := String.mk ((trimChars s.data).map Char.toLower)

/-- The value of the `cardCounts` map at `key`: how many decklist entries
normalize to `key`. -/
def tallyCount (cardNames : List String) (key : String) : Nat :=
  cardNames.countP (fun n => normKey n == key)

/-- The key set of the `cardCounts` map (each distinct normalized name
once; the list order is irrelevant, enumeration order is a parameter). -/
def tallyKeys (cardNames : List String) : List String :=
  (cardNames.map normKey).dedup

/-- The body of the duplicate-collecting loop for one map key: a name with
count above one that is not a basic land contributes
`fmt.Sprintf("%s (x%d)", name, count)`. -/
def dupEntry (cardNames : List String) (key : String) : Option String :=
  if 1 < tallyCount cardNames key ∧ key ∉ basicLands then
    some (key ++ (" (x" ++ (toString (tallyCount cardNames key) ++ ")")))
  else none

/-- The `duplicates` slice after ranging over the `cardCounts` map in the
enumeration order `order` (Go map iteration order is unspecified; a valid
order is any permutation of `tallyKeys cardNames`). -/
def duplicatesList (cardNames : List String) (order : List String) : List String :=
  order.filterMap (dupEntry cardNames)

/-- The report header chunk. -/
def headerChunk : String := "# Commander Deck Validation\n\n"

/-- The banned-commander notice chunk. -/
def banChunk : String := "❌ **ERROR:** Your commander is banned in Commander format!\n\n"

/-- The ineligible-commander notice chunk. -/
def eligChunk : String :=
  "❌ **ERROR:** This card cannot be a commander (must be legendary or have special text allowing it)!\n\n"

/-- The deck-size pass chunk (exactly 99 entries). -/
def okSizeChunk : String := "✅\n"

/-- The deck-size informational note chunk (exactly 100 entries). -/
def noteSizeChunk : String := "(Note: 100 cards including commander, should be 99 in decklist)\n"

/-- The deck-size failure chunk (any other count). -/
def failSizeChunk : String := "❌ (should be 99 cards plus commander)\n"

/-- The singleton-rule section header chunk. -/
def singletonHeaderChunk : String := "\n**Singleton Rule:** "

/-- The singleton pass chunk. -/
def okDupChunk : String := "✅ No duplicates\n"

/-- The singleton failure header chunk. -/
def foundDupChunk : String := "❌ Found duplicates:\n"

/-- The closing note chunk. -/
def finalNoteChunk : String :=
  "\n*Note: Full color identity and banned card validation requires checking each card individually, which may take some time.*"

/-- The deck-size section: the observed count, then pass, note, or fail. -/
def deckSizeChunks (totalCards : Nat) : List String :=
  ["**Deck Size:** " ++ (toString totalCards ++ " cards ")] ++
    (if totalCards = 99 then [okSizeChunk]
     else if totalCards = 100 then [noteSizeChunk]
     else [failSizeChunk])

/-- The singleton section: header, then pass, or the failure header
followed by one line per offending entry. -/
def singletonChunks (duplicates : List String) : List String :=
  [singletonHeaderChunk] ++
    (if duplicates = [] then [okDupChunk]
     else [foundDupChunk] ++ duplicates.map (fun dup => "  - " ++ (dup ++ "\n")))

/-- All chunks written to the `strings.Builder` for a resolved commander,
in source order. -/
def validateChunks (commander : Card) (cardNames : List String) (order : List String) :
    List String :=
  [headerChunk,
   "**Commander:** " ++ (commander.name ++ "\n"),
   "**Color Identity:** " ++ (String.intercalate ", " commander.colorIdentity ++ "\n\n")] ++
  (if commander.legalityCommander = "banned" then [banChunk] else []) ++
  (if canBeCommander commander = false then [eligChunk] else []) ++
  deckSizeChunks cardNames.length ++
  singletonChunks (duplicatesList cardNames order) ++
  [finalNoteChunk]

/-- The two result shapes of an MCP tool handler:
`mcp.NewToolResultText` and `mcp.NewToolResultError`. -/
inductive ToolResult where
  | text : String → ToolResult
  | error : String → ToolResult
deriving DecidableEq

/-- Whether a tool result is the error shape. -/
def ToolResult.isError : ToolResult → Bool
  | .error _ => true
  | _ => false

/-- The whole `handleValidateDeck` handler.  `commanderName` and
`decklist` are the request arguments (`none` models a missing argument,
rejected by `RequireString`); `decklistJson` is the JSON parse of the raw
decklist when it is valid JSON; `resolve` is the Scryfall
`GetCardByName` collaborator; `order` is the enumeration order of the
`cardCounts` map. -/
def handleValidateDeck (resolve : String → Except String Card)
    (commanderName : Option String) (decklist : Option String)
    (decklistJson : Option Json) (order : List String) : ToolResult :=
  match commanderName with
  | none => ToolResult.error "required argument commander not found"
  | some cname =>
    match decklist with
    | none => ToolResult.error "required argument decklist not found"
    | some raw =>
      let cardNames := parseDecklist decklistJson raw
      match resolve cname with
      | .error e => ToolResult.error ("Commander card not found: " ++ e)
      | .ok commander =>
          ToolResult.text (String.join (validateChunks commander cardNames order))

/-- A concrete commander used to instantiate theorems: legendary, legal,
mono-green. -/
def sampleCard : Card :=
  { name := "cmdr", typeLine := "legendary creature", oracleText := "",
    colorIdentity := ["G"], legalityCommander := "legal" }

/-- The same card with the commander legality set to not_legal. -/
def cardNotLegal : Card := { sampleCard with legalityCommander := "not_legal" }

/-- A resolver that always resolves to `sampleCard`. -/
def sampleResolver : String → Except String Card := fun _ => Except.ok sampleCard

/-! Helper lemmas about strings and chunk membership. -/

/-- The character data of an appended string. -/
lemma data_append (a b : String) : (a ++ b).data = a.data ++ b.data := rfl

/-- A string whose first character differs from the head of `p` is not
`p ++ r` for any `r`. -/
lemma ne_append_of_head (q p r : String) (cp : Char)
    (hp : p.data.head? = some cp) (hq : q.data.head? ≠ some cp) : q ≠ p ++ r := by
  intro h
  apply hq
  rw [h, data_append]
  cases hd : p.data with
  | nil => rw [hd] at hp; simp at hp
  | cons a t =>
    rw [hd] at hp
    simp only [List.head?_cons, Option.some.injEq] at hp
    simp [hp]

/-- Membership in a conditional singleton list. -/
lemma mem_ite_singleton {P : Prop} [Decidable P] (y x : String) :
    (x ∈ if P then [y] else ([] : List String)) ↔ P ∧ x = y := by
  split_ifs with h <;> simp_all

/-- Membership in the deck-size section. -/
lemma mem_deckSizeChunks (x : String) (n : Nat) :
    x ∈ deckSizeChunks n ↔
      x = "**Deck Size:** " ++ (toString n ++ " cards ") ∨
      (n = 99 ∧ x = okSizeChunk) ∨ (n = 100 ∧ x = noteSizeChunk) ∨
      (n ≠ 99 ∧ n ≠ 100 ∧ x = failSizeChunk) := by
  unfold deckSizeChunks
  split_ifs with h1 h2 <;> simp_all

/-- Membership in the singleton-rule section. -/
lemma mem_singletonChunks (x : String) (d : List String) :
    x ∈ singletonChunks d ↔
      x = singletonHeaderChunk ∨ (d = [] ∧ x = okDupChunk) ∨
      (d ≠ [] ∧ x = foundDupChunk) ∨ (∃ e ∈ d, x = "  - " ++ (e ++ "\n")) := by
  unfold singletonChunks
  split_ifs with h <;> simp_all [eq_comm]

/-- The ban notice appears in the report iff the commander's legality map
value at "commander" is exactly "banned". -/
lemma mem_banChunk_iff (c : Card) (ns o : List String) :
    banChunk ∈ validateChunks c ns o ↔ c.legalityCommander = "banned" := by
  have h1 : banChunk ≠ "**Commander:** " ++ (c.name ++ "\n") :=
    ne_append_of_head _ _ _ '*' rfl (by decide)
  have h2 : banChunk ≠ "**Color Identity:** " ++
      (String.intercalate ", " c.colorIdentity ++ "\n\n") :=
    ne_append_of_head _ _ _ '*' rfl (by decide)
  have h3 : banChunk ≠ "**Deck Size:** " ++ (toString ns.length ++ " cards ") :=
    ne_append_of_head _ _ _ '*' rfl (by decide)
  have h4 : ∀ e : String, banChunk ≠ "  - " ++ (e ++ "\n") := fun e =>
    ne_append_of_head _ _ _ ' ' rfl (by decide)
  have c1 : banChunk ≠ headerChunk := by decide
  have c2 : banChunk ≠ eligChunk := by decide
  have c3 : banChunk ≠ okSizeChunk := by decide
  have c4 : banChunk ≠ noteSizeChunk := by decide
  have c5 : banChunk ≠ failSizeChunk := by decide
  have c6 : banChunk ≠ singletonHeaderChunk := by decide
  have c7 : banChunk ≠ okDupChunk := by decide
  have c8 : banChunk ≠ foundDupChunk := by decide
  have c9 : banChunk ≠ finalNoteChunk := by decide
  simp [validateChunks, List.mem_append, mem_deckSizeChunks, mem_singletonChunks,
    mem_ite_singleton, h1, h2, h3, h4, c1, c2, c3, c4, c5, c6, c7, c8, c9]

/-- The deck-size pass mark appears in the report iff the entry count is
exactly 99. -/
lemma mem_okSizeChunk_iff (c : Card) (ns o : List String) :
    okSizeChunk ∈ validateChunks c ns o ↔ ns.length = 99 := by
  have h1 : okSizeChunk ≠ "**Commander:** " ++ (c.name ++ "\n") :=
    ne_append_of_head _ _ _ '*' rfl (by decide)
  have h2 : okSizeChunk ≠ "**Color Identity:** " ++
      (String.intercalate ", " c.colorIdentity ++ "\n\n") :=
    ne_append_of_head _ _ _ '*' rfl (by decide)
  have h3 : okSizeChunk ≠ "**Deck Size:** " ++ (toString ns.length ++ " cards ") :=
    ne_append_of_head _ _ _ '*' rfl (by decide)
  have h4 : ∀ e : String, okSizeChunk ≠ "  - " ++ (e ++ "\n") := fun e =>
    ne_append_of_head _ _ _ ' ' rfl (by decide)
  have c1 : okSizeChunk ≠ headerChunk := by decide
  have c2 : okSizeChunk ≠ eligChunk := by decide
  have c3 : okSizeChunk ≠ banChunk := by decide
  have c4 : okSizeChunk ≠ noteSizeChunk := by decide
  have c5 : okSizeChunk ≠ failSizeChunk := by decide
  have c6 : okSizeChunk ≠ singletonHeaderChunk := by decide
  have c7 : okSizeChunk ≠ okDupChunk := by decide
  have c8 : okSizeChunk ≠ foundDupChunk := by decide
  have c9 : okSizeChunk ≠ finalNoteChunk := by decide
  simp [validateChunks, List.mem_append, mem_deckSizeChunks, mem_singletonChunks,
    mem_ite_singleton, h1, h2, h3, h4, c1, c2, c3, c4, c5, c6, c7, c8, c9]

/-- The deck-size informational note appears in the report iff the entry
count is exactly 100. -/
lemma mem_noteSizeChunk_iff (c : Card) (ns o : List String) :
    noteSizeChunk ∈ validateChunks c ns o ↔ ns.length = 100 := by
  have h1 : noteSizeChunk ≠ "**Commander:** " ++ (c.name ++ "\n") :=
    ne_append_of_head _ _ _ '*' rfl (by decide)
  have h2 : noteSizeChunk ≠ "**Color Identity:** " ++
      (String.intercalate ", " c.colorIdentity ++ "\n\n") :=
    ne_append_of_head _ _ _ '*' rfl (by decide)
  have h3 : noteSizeChunk ≠ "**Deck Size:** " ++ (toString ns.length ++ " cards ") :=
    ne_append_of_head _ _ _ '*' rfl (by decide)
  have h4 : ∀ e : String, noteSizeChunk ≠ "  - " ++ (e ++ "\n") := fun e =>
    ne_append_of_head _ _ _ ' ' rfl (by decide)
  have c1 : noteSizeChunk ≠ headerChunk := by decide
  have c2 : noteSizeChunk ≠ eligChunk := by decide
  have c3 : noteSizeChunk ≠ banChunk := by decide
  have c4 : noteSizeChunk ≠ okSizeChunk := by decide
  have c5 : noteSizeChunk ≠ failSizeChunk := by decide
  have c6 : noteSizeChunk ≠ singletonHeaderChunk := by decide
  have c7 : noteSizeChunk ≠ okDupChunk := by decide
  have c8 : noteSizeChunk ≠ foundDupChunk := by decide
  have c9 : noteSizeChunk ≠ finalNoteChunk := by decide
  simp [validateChunks, List.mem_append, mem_deckSizeChunks, mem_singletonChunks,
    mem_ite_singleton, h1, h2, h3, h4, c1, c2, c3, c4, c5, c6, c7, c8, c9]

/-- The deck-size failure mark appears in the report iff the entry count is
neither 99 nor 100. -/
lemma mem_failSizeChunk_iff (c : Card) (ns o : List String) :
    failSizeChunk ∈ validateChunks c ns o ↔ (ns.length ≠ 99 ∧ ns.length ≠ 100) := by
  have h1 : failSizeChunk ≠ "**Commander:** " ++ (c.name ++ "\n") :=
    ne_append_of_head _ _ _ '*' rfl (by decide)
  have h2 : failSizeChunk ≠ "**Color Identity:** " ++
      (String.intercalate ", " c.colorIdentity ++ "\n\n") :=
    ne_append_of_head _ _ _ '*' rfl (by decide)
  have h3 : failSizeChunk ≠ "**Deck Size:** " ++ (toString ns.length ++ " cards ") :=
    ne_append_of_head _ _ _ '*' rfl (by decide)
  have h4 : ∀ e : String, failSizeChunk ≠ "  - " ++ (e ++ "\n") := fun e =>
    ne_append_of_head _ _ _ ' ' rfl (by decide)
  have c1 : failSizeChunk ≠ headerChunk := by decide
  have c2 : failSizeChunk ≠ eligChunk := by decide
  have c3 : failSizeChunk ≠ banChunk := by decide
  have c4 : failSizeChunk ≠ okSizeChunk := by decide
  have c5 : failSizeChunk ≠ noteSizeChunk := by decide
  have c6 : failSizeChunk ≠ singletonHeaderChunk := by decide
  have c7 : failSizeChunk ≠ okDupChunk := by decide
  have c8 : failSizeChunk ≠ foundDupChunk := by decide
  have c9 : failSizeChunk ≠ finalNoteChunk := by decide
  simp [validateChunks, List.mem_append, mem_deckSizeChunks, mem_singletonChunks,
    mem_ite_singleton, h1, h2, h3, h4, c1, c2, c3, c4, c5, c6, c7, c8, c9]

/-! Helper lemmas about trimming, splitting, and line parsing. -/

/-- The head of `dropWhile p` never satisfies `p`. -/
lemma head?_dropWhile_not (p : Char → Bool) :
    ∀ (l : List Char) (c : Char), (l.dropWhile p).head? = some c → p c = false := by
  intro l
  induction l with
  | nil => simp
  | cons a t ih =>
    intro c h
    rw [List.dropWhile_cons] at h
    by_cases hp : p a
    · exact ih c (by simpa [hp] using h)
    · obtain rfl : a = c := by simpa [hp] using h
      simpa using hp

/-- When `dropWhile p` is nonempty it keeps the last element. -/
lemma getLast?_dropWhile (p : Char → Bool) :
    ∀ l : List Char, l.dropWhile p ≠ [] → (l.dropWhile p).getLast? = l.getLast? := by
  intro l
  induction l with
  | nil => simp
  | cons a t ih =>
    intro h
    rw [List.dropWhile_cons] at h ⊢
    by_cases hp : p a
    · rw [if_pos hp] at h ⊢
      have ht : t ≠ [] := by
        intro he
        rw [he] at h
        simp at h
      rw [ih h]
      rcases t with _ | ⟨b, q⟩
      · exact absurd rfl ht
      · rw [List.getLast?_cons_cons]
    · rw [if_neg hp]

/-- The last character of a trimmed line is not white space. -/
lemma trimChars_getLast? (l : List Char) (c : Char)
    (h : (trimChars l).getLast? = some c) : isSpaceChar c = false := by
  unfold trimChars at h
  rw [List.getLast?_reverse] at h
  exact head?_dropWhile_not _ _ _ h

/-- The first character of a trimmed line is not white space. -/
lemma trimChars_head? (l : List Char) (c : Char)
    (h : (trimChars l).head? = some c) : isSpaceChar c = false := by
  unfold trimChars at h
  rw [List.head?_reverse] at h
  have hB : List.dropWhile isSpaceChar (l.dropWhile isSpaceChar).reverse ≠ [] := by
    intro he
    rw [he] at h
    simp at h
  rw [getLast?_dropWhile _ _ hB, List.getLast?_reverse] at h
  exact head?_dropWhile_not _ _ _ h

/-- A line that trims to nothing is entirely white space. -/
lemma trimChars_eq_nil (l : List Char) (h : trimChars l = []) :
    ∀ x ∈ l, isSpaceChar x = true := by
  unfold trimChars at h
  rw [List.reverse_eq_nil_iff, List.dropWhile_eq_nil_iff] at h
  intro x hx
  have hx' : x ∈ l.takeWhile isSpaceChar ++ l.dropWhile isSpaceChar := by
    rw [List.takeWhile_append_dropWhile]
    exact hx
  rcases List.mem_append.1 hx' with h1 | h2
  · exact List.mem_takeWhile_imp h1
  · exact h x (List.mem_reverse.2 h2)

/-- A `getLast?` value is a member. -/
lemma getLast?_mem_char : ∀ (l : List Char) (x : Char), l.getLast? = some x → x ∈ l := by
  intro l
  induction l with
  | nil => simp
  | cons a t ih =>
    intro x h
    rcases t with _ | ⟨b, q⟩
    · simp at h
      simp [h]
    · rw [List.getLast?_cons_cons] at h
      exact List.mem_cons_of_mem a (ih x h)

/-- Reassembling the two parts produced by a successful split at the first
space gives back the original line. -/
lemma splitFirstSpace_eq :
    ∀ (l a b : List Char), splitFirstSpace l = (a, some b) → l = a ++ ' ' :: b := by
  intro l
  induction l with
  | nil =>
    intro a b h
    simp [splitFirstSpace] at h
  | cons c t ih =>
    intro a b h
    rw [splitFirstSpace] at h
    by_cases hc : c = ' '
    · rw [if_pos (by simp [hc])] at h
      injection h with h1 h2
      injection h2 with h2
      subst h1
      subst h2
      simp [hc]
    · rw [if_neg (by simp [hc])] at h
      injection h with h1 h2
      rcases a with _ | ⟨a0, a'⟩
      · simp at h1
      · injection h1 with h1a h1b
        subst h1a
        have := ih a' b (by rw [Prod.ext_iff]; exact ⟨h1b, h2⟩)
        simp [this]

/-- A line is skipped by the text-mode loop iff it trims to nothing. -/
lemma parseLineEntry_eq_none_iff (l : List Char) :
    parseLineEntry l = none ↔ trimChars l = [] := by
  unfold parseLineEntry
  split_ifs with h
  · simp [h]
  · rcases hsp : splitFirstSpace (trimChars l) with ⟨p1, op2⟩
    rcases op2 with _ | p2 <;> simp [hsp, h] <;> split_ifs <;> simp

/-- When the trimmed line contains a space and its first part is accepted
by `Sscanf %d`, the entry is the trimmed remainder after that space. -/
lemma parseLineEntry_qty (l p1 p2 : List Char)
    (hsp : splitFirstSpace (trimChars l) = (p1, some p2))
    (hq : sscanfDOk p1 = true) :
    parseLineEntry l = some (String.mk (trimChars p2)) := by
  have ht : trimChars l ≠ [] := by
    intro he
    rw [he] at hsp
    simp [splitFirstSpace] at hsp
  unfold parseLineEntry
  rw [if_neg ht, hsp]
  simp [hq]

/-- When the trimmed line contains a space but its first part is rejected
by `Sscanf %d`, the whole trimmed line is kept as the entry. -/
lemma parseLineEntry_whole (l p1 p2 : List Char)
    (hsp : splitFirstSpace (trimChars l) = (p1, some p2))
    (hq : sscanfDOk p1 = false) :
    parseLineEntry l = some (String.mk (trimChars l)) := by
  have ht : trimChars l ≠ [] := by
    intro he
    rw [he] at hsp
    simp [splitFirstSpace] at hsp
  unfold parseLineEntry
  rw [if_neg ht, hsp]
  simp [hq]

/-- When the trimmed line contains no space, it is kept whole. -/
lemma parseLineEntry_nospace (l : List Char) (ht : trimChars l ≠ [])
    (hsp : (splitFirstSpace (trimChars l)).snd = none) :
    parseLineEntry l = some (String.mk (trimChars l)) := by
  unfold parseLineEntry
  rw [if_neg ht]
  rcases h : splitFirstSpace (trimChars l) with ⟨p1, op2⟩
  rw [h] at hsp
  rcases op2 with _ | p2
  · rfl
  · simp at hsp

/-- The two shapes a text-mode entry can take: the whole trimmed line, or
the trimmed remainder after a stripped quantity token. -/
lemma parseLineEntry_cases (l : List Char) (e : String)
    (h : parseLineEntry l = some e) :
    (trimChars l ≠ [] ∧ e = String.mk (trimChars l)) ∨
    (∃ p1 p2, splitFirstSpace (trimChars l) = (p1, some p2) ∧ sscanfDOk p1 = true ∧
      e = String.mk (trimChars p2)) := by
  have ht : trimChars l ≠ [] := by
    intro he
    rw [(parseLineEntry_eq_none_iff l).2 he] at h
    exact Option.noConfusion h
  rcases hsp : splitFirstSpace (trimChars l) with ⟨p1, op2⟩
  rcases op2 with _ | p2
  · left
    refine ⟨ht, ?_⟩
    have hr := parseLineEntry_nospace l ht (by rw [hsp])
    rw [hr] at h
    injection h with h
    exact h.symm
  · rcases hq : sscanfDOk p1 with _ | _
    · left
      refine ⟨ht, ?_⟩
      have hr := parseLineEntry_whole l p1 p2 hsp hq
      rw [hr] at h
      injection h with h
      exact h.symm
    · right
      refine ⟨p1, p2, rfl, hq, ?_⟩
      have hr := parseLineEntry_qty l p1 p2 hsp hq
      rw [hr] at h
      injection h with h
      exact h.symm

/-- Every entry produced by the text-mode line parser contains a
non-white-space character (so it is neither empty nor blank). -/
lemma parseLineEntry_not_blank (l : List Char) (e : String)
    (h : parseLineEntry l = some e) : ∃ c ∈ e.data, isSpaceChar c = false := by
  have hhead : ∀ m : List Char, trimChars m ≠ [] →
      ∃ c ∈ trimChars m, isSpaceChar c = false := by
    intro m hm
    rcases hl : trimChars m with _ | ⟨c0, t0⟩
    · exact absurd hl hm
    · exact ⟨c0, by simp [hl], trimChars_head? m c0 (by rw [hl]; rfl)⟩
  rcases parseLineEntry_cases l e h with ⟨ht, rfl⟩ | ⟨p1, p2, hsp, hq, rfl⟩
  · exact hhead l ht
  · have hp2 : trimChars p2 ≠ [] := by
      intro he
      have hall := trimChars_eq_nil p2 he
      have hteq := splitFirstSpace_eq _ p1 p2 hsp
      have hgl : (trimChars l).getLast? = (' ' :: p2).getLast? := by
        rw [hteq]
        exact List.getLast?_append_of_ne_nil p1 (show (' ' :: p2) ≠ [] by simp)
      have hlast : ∃ c, (trimChars l).getLast? = some c ∧ isSpaceChar c = true := by
        rcases p2 with _ | ⟨b, q⟩
        · refine ⟨' ', ?_, by decide⟩
          rw [hgl]
          rfl
        · rcases hg : (b :: q).getLast? with _ | x
          · rw [List.getLast?_eq_none_iff] at hg
            exact absurd hg (by simp)
          · refine ⟨x, ?_, hall x (getLast?_mem_char _ _ hg)⟩
            rw [hgl, List.getLast?_cons_cons, hg]
      rcases hlast with ⟨c, hc1, hc2⟩
      rw [trimChars_getLast? l c hc1] at hc2
      exact Bool.noConfusion hc2
    exact hhead p2 hp2

/-- The text-mode parse yields one entry per line that does not trim to
nothing. -/
lemma length_filterMap_parseLineEntry :
    ∀ ls : List (List Char),
      (ls.filterMap parseLineEntry).length =
        (ls.countP fun l => !decide (trimChars l = [])) := by
  intro ls
  induction ls with
  | nil => rfl
  | cons a t ih =>
    rw [List.filterMap_cons, List.countP_cons]
    rcases hp : parseLineEntry a with _ | e
    · have ha : trimChars a = [] := (parseLineEntry_eq_none_iff a).1 hp
      simp [ha, ih]
    · have ha : ¬ trimChars a = [] := by
        intro he
        rw [(parseLineEntry_eq_none_iff a).2 he] at hp
        exact Option.noConfusion hp
      simp [ha, ih]

/-! Helper lemmas about the duplicate-collecting loop. -/

/-- A map key contributes nothing to the duplicates slice iff its count
being above one forces it to be a basic land. -/
lemma dupEntry_eq_none_iff (ns : List String) (k : String) :
    dupEntry ns k = none ↔ (1 < tallyCount ns k → k ∈ basicLands) := by
  constructor
  · intro hn hc
    by_contra hm
    unfold dupEntry at hn
    rw [if_pos ⟨hc, hm⟩] at hn
    exact Option.noConfusion hn
  · intro hi
    unfold dupEntry
    split_ifs with h
    · exact absurd (hi h.1) h.2
    · rfl

/-- A non-basic map key with count above one contributes its formatted
entry to the duplicates slice. -/
lemma dupEntry_mem (ns : List String) (k : String) (order : List String)
    (hk : k ∈ order) (h1 : 1 < tallyCount ns k) (h2 : k ∉ basicLands) :
    (k ++ (" (x" ++ (toString (tallyCount ns k) ++ ")"))) ∈ duplicatesList ns order := by
  unfold duplicatesList
  refine List.mem_filterMap.2 ⟨k, hk, ?_⟩
  unfold dupEntry
  rw [if_pos ⟨h1, h2⟩]

/-- Permuting the map enumeration order permutes the duplicates slice. -/
lemma duplicatesList_perm (ns o1 o2 : List String) (h : o1.Perm o2) :
    (duplicatesList ns o1).Perm (duplicatesList ns o2) :=
  h.filterMap _

/-- Permuting the duplicates slice permutes the singleton section. -/
lemma singletonChunks_perm (d1 d2 : List String) (h : d1.Perm d2) :
    (singletonChunks d1).Perm (singletonChunks d2) := by
  by_cases he : d1 = []
  · have he2 : d2 = [] := by
      have hl := h.length_eq
      rw [he] at hl
      exact List.length_eq_zero.1 hl.symm
    rw [he, he2]
  · have he2 : d2 ≠ [] := by
      intro h2
      apply he
      have hl := h.length_eq
      rw [h2] at hl
      exact List.length_eq_zero.1 hl
    unfold singletonChunks
    rw [if_neg he, if_neg he2]
    exact (List.Perm.refl _).append ((List.Perm.refl _).append (h.map _))

/-- Permuting the map enumeration order permutes the report chunks (all
sections other than the duplicate lines are unchanged). -/
lemma validateChunks_perm (c : Card) (ns o1 o2 : List String) (h : o1.Perm o2) :
    (validateChunks c ns o1).Perm (validateChunks c ns o2) := by
  unfold validateChunks
  exact (((((List.Perm.refl _).append (List.Perm.refl _)).append
    (List.Perm.refl _)).append (List.Perm.refl _)).append
    (singletonChunks_perm _ _ (duplicatesList_perm ns o1 o2 h))).append
    (List.Perm.refl _)

/-! Claim theorems. -/

/-- Every element of a mapped string array is a JSON string. -/
lemma all_str_map (ss : List String) :
    (ss.map Json.str).all (fun v => v.isStr || v.isNull) = true := by
  induction ss with
  | nil => rfl
  | cons a t ih => simp_all [Json.isStr]

/-- Decoding the elements of a mapped string array gives back the strings. -/
lemma map_elem_str (ss : List String) :
    (ss.map Json.str).map jsonElemToString = ss := by
  induction ss with
  | nil => rfl
  | cons a t ih => simp_all [jsonElemToString]

/-- C9: for every raw decklist string that is a JSON array of strings,
parsing returns exactly that sequence of strings, preserving order and
original casing, with no trimming, prefix-stripping, or deduplication
applied. -/
theorem C9_json_array_identity (ss : List String) (raw : String) :
    parseDecklist (some (Json.arr (ss.map Json.str))) raw = ss := by
  unfold parseDecklist goUnmarshalStringArray
  simp only [all_str_map, if_true]
  exact map_elem_str ss

/-- C2 counterexample: the raw decklist "null" is valid JSON and not a
plain JSON array of strings, yet `json.Unmarshal` into a string slice
succeeds on it (a documented no-op), so the parser does NOT fall through to
text mode (which would produce the entry "null"); moreover, for the raw
decklist a JSON array with a non-string element, the entries produced by
the failed JSON decode (here "a" and the zero value "") are kept and the
text-mode entries are appended after them. -/
theorem C2_counterexample :
    parseDecklist (some Json.null) "null" ≠ parseTextMode "null" ∧
    parseDecklist (some Json.null) "null" = [] ∧
    parseTextMode "null" = ["null"] ∧
    parseDecklist (some (Json.arr [Json.str "a", Json.num 1])) "[\"a\", 1]" =
      ["a", ""] ++ parseTextMode "[\"a\", 1]" := by
  exact ⟨by decide, rfl, by decide, rfl⟩

/-- C2 amended: a raw decklist that is a valid JSON object, number, string
or boolean is treated as a decode failure and is parsed in text mode with
no retained entries and no hard error; JSON null instead decodes
successfully to the empty decklist (no text fallback); and a JSON array
with an element that is neither a string nor null is a decode failure that
falls through to text mode but keeps one entry per array element (strings
kept verbatim, other elements as the zero value "") ahead of the text-mode
entries. -/
theorem C2_amended_fallthrough (raw : String) (vs : List Json) :
    (∀ b, parseDecklist (some (Json.bool b)) raw = parseTextMode raw) ∧
    (∀ n : Int, parseDecklist (some (Json.num n)) raw = parseTextMode raw) ∧
    (∀ s, parseDecklist (some (Json.str s)) raw = parseTextMode raw) ∧
    (∀ kvs, parseDecklist (some (Json.obj kvs)) raw = parseTextMode raw) ∧
    parseDecklist (some Json.null) raw = [] ∧
    (vs.all (fun v => v.isStr || v.isNull) = false →
      parseDecklist (some (Json.arr vs)) raw =
        vs.map jsonElemToString ++ parseTextMode raw) := by
  refine ⟨fun b => rfl, fun n => rfl, fun s => rfl, fun kvs => rfl, rfl, fun hv => ?_⟩
  simp [parseDecklist, goUnmarshalStringArray, hv]

/-- Witness for the amended C2 at the concrete array [1]. -/
theorem C2_amended_witness :
    ([Json.num 1].all (fun v => v.isStr || v.isNull) = false) ∧
    parseDecklist (some (Json.arr [Json.num 1])) "x" =
      [Json.num 1].map jsonElemToString ++ parseTextMode "x" :=
  ⟨by decide, (C2_amended_fallthrough "x" [Json.num 1]).2.2.2.2.2 (by decide)⟩

/-- C8 counterexample: the raw decklist [""] is a JSON array of strings,
and JSON-mode parsing keeps its empty-string entry verbatim, so a parsed
entry can be empty. -/
theorem C8_counterexample :
    "" ∈ parseDecklist (some (Json.arr [Json.str ""])) "[\"\"]" ∧
    parseDecklist (some (Json.arr [Json.str ""])) "[\"\"]" = [""] :=
  ⟨by decide, rfl⟩

/-- C8 amended: every entry produced by TEXT-mode parsing is non-empty and
not whitespace-only; JSON-mode entries are taken verbatim from the JSON
array and may be empty or whitespace-only. -/
theorem C8_amended_text_entries (raw : String) (e : String)
    (he : e ∈ parseTextMode raw) :
    e.data ≠ [] ∧ ∃ c ∈ e.data, isSpaceChar c = false := by
  unfold parseTextMode at he
  rcases List.mem_filterMap.1 he with ⟨l, _, hl⟩
  have h2 := parseLineEntry_not_blank l e hl
  refine ⟨?_, h2⟩
  rcases h2 with ⟨c, hc, _⟩
  intro hnil
  rw [hnil] at hc
  exact List.not_mem_nil c hc

/-- Witness for the amended C8 at the concrete line "1 Sol Ring". -/
theorem C8_amended_witness :
    ("Sol Ring" ∈ parseTextMode "1 Sol Ring") ∧
    ("Sol Ring" : String).data ≠ [] ∧
    ∃ c ∈ ("Sol Ring" : String).data, isSpaceChar c = false :=
  ⟨by decide, C8_amended_text_entries "1 Sol Ring" "Sol Ring" (by decide)⟩

/-- C7 counterexample: the first space-delimited token of the line
"99999999999999999999 Forest" is an all-digit integer token, yet the line
is kept whole rather than stripped to "Forest", because fmt's scanner
reports an overflow error handing that token to
`strconv.ParseInt(tok, 10, 64)`; the signed 64-bit boundary values show the
cutoff exactly. -/
theorem C7_counterexample :
    (∀ c ∈ ("99999999999999999999" : String).data, isAsciiDigit c = true) ∧
    sscanfDOk (("99999999999999999999" : String).data) = false ∧
    parseLineEntry ("99999999999999999999 Forest".data) =
      some "99999999999999999999 Forest" ∧
    parseLineEntry ("99999999999999999999 Forest".data) ≠ some "Forest" ∧
    sscanfDOk (("9223372036854775807" : String).data) = true ∧
    sscanfDOk (("9223372036854775808" : String).data) = false ∧
    parseLineEntry ("9223372036854775807 Forest".data) = some "Forest" := by
  refine ⟨by decide, by decide, by decide, by decide, by decide, by decide, by decide⟩

/-- C7 amended: for every text-mode decklist line, after trimming (of all
Unicode white space), a leading token accepted by `Sscanf %d` — an
optionally signed decimal number whose value fits in a signed 64-bit
integer — followed by a space is stripped and the rest of the line
(trimmed) becomes the entry's name, while a line whose first
space-delimited token is not accepted (a non-number, or a number
overflowing 64 bits) is kept whole; each nonblank line contributes exactly
one entry regardless of its stated quantity, and
"1 Sol Ring\nForest\n2 Mountain" parses to
["Sol Ring", "Forest", "Mountain"]. -/
theorem C7_text_mode_lines (l p1 p2 : List Char)
    (hsp : splitFirstSpace (trimChars l) = (p1, some p2)) :
    (sscanfDOk p1 = true → parseLineEntry l = some (String.mk (trimChars p2))) ∧
    (sscanfDOk p1 = false → parseLineEntry l = some (String.mk (trimChars l))) ∧
    parseTextMode "1 Sol Ring\nForest\n2 Mountain" = ["Sol Ring", "Forest", "Mountain"] ∧
    ∀ raw : String, (parseTextMode raw).length =
      ((splitOnChar '\n' raw.data).countP fun line => !decide (trimChars line = [])) :=
  ⟨parseLineEntry_qty l p1 p2 hsp, parseLineEntry_whole l p1 p2 hsp, by decide,
    fun raw => length_filterMap_parseLineEntry _⟩

/-- Witness for C7 at the concrete line "1 Sol Ring". -/
theorem C7_witness :
    splitFirstSpace (trimChars ("1 Sol Ring".data)) = ("1".data, some ("Sol Ring".data)) ∧
    ((sscanfDOk ("1".data) = true →
      parseLineEntry ("1 Sol Ring".data) = some (String.mk (trimChars ("Sol Ring".data)))) ∧
    (sscanfDOk ("1".data) = false →
      parseLineEntry ("1 Sol Ring".data) = some (String.mk (trimChars ("1 Sol Ring".data)))) ∧
    parseTextMode "1 Sol Ring\nForest\n2 Mountain" = ["Sol Ring", "Forest", "Mountain"] ∧
    ∀ raw : String, (parseTextMode raw).length =
      ((splitOnChar '\n' raw.data).countP fun line => !decide (trimChars line = []))) :=
  ⟨by decide, C7_text_mode_lines ("1 Sol Ring".data) ("1".data) ("Sol Ring".data) (by decide)⟩

/-- C5: the deck-size verdict depends only on the number of parsed entries:
the observed count is always reported, exactly 99 entries passes cleanly,
exactly 100 entries passes with the informational note, and any other count
fails. -/
theorem C5_deck_size (c : Card) (ns o : List String) :
    ("**Deck Size:** " ++ (toString ns.length ++ " cards ")) ∈ validateChunks c ns o ∧
    (okSizeChunk ∈ validateChunks c ns o ↔ ns.length = 99) ∧
    (noteSizeChunk ∈ validateChunks c ns o ↔ ns.length = 100) ∧
    (failSizeChunk ∈ validateChunks c ns o ↔ (ns.length ≠ 99 ∧ ns.length ≠ 100)) := by
  refine ⟨?_, mem_okSizeChunk_iff c ns o, mem_noteSizeChunk_iff c ns o,
    mem_failSizeChunk_iff c ns o⟩
  unfold validateChunks deckSizeChunks
  simp [List.mem_append]

/-- C6: the singleton verdict passes iff no tallied name other than the
six (lower-cased) basic-land names has count above one, and each violating
name appears in the offending list formatted as the name followed by its
count. -/
theorem C6_singleton (names order : List String)
    (h : order.Perm (tallyKeys names)) :
    (okDupChunk ∈ singletonChunks (duplicatesList names order) ↔
      ∀ k ∈ tallyKeys names, 1 < tallyCount names k → k ∈ basicLands) ∧
    (∀ k ∈ tallyKeys names, 1 < tallyCount names k → k ∉ basicLands →
      (k ++ (" (x" ++ (toString (tallyCount names k) ++ ")"))) ∈
        duplicatesList names order) := by
  constructor
  · have hd : ∀ e : String, okDupChunk ≠ "  - " ++ (e ++ "\n") := fun e =>
      ne_append_of_head _ _ _ ' ' rfl (by decide)
    have hmem : okDupChunk ∈ singletonChunks (duplicatesList names order) ↔
        duplicatesList names order = [] := by
      rw [mem_singletonChunks]
      simp [hd, show okDupChunk ≠ singletonHeaderChunk by decide,
        show okDupChunk ≠ foundDupChunk by decide]
    rw [hmem]
    unfold duplicatesList
    rw [List.filterMap_eq_nil_iff]
    constructor
    · intro hall k hk hc
      by_contra hm
      have hnone := hall k ((h.mem_iff).2 hk)
      exact hm ((dupEntry_eq_none_iff names k).1 hnone hc)
    · intro hi k hk
      exact (dupEntry_eq_none_iff names k).2 (hi k ((h.mem_iff).1 hk))
  · intro k hk h1 h2
    exact dupEntry_mem names k order ((h.mem_iff).2 hk) h1 h2

/-- Witness for C6 at a concrete tally with a duplicated non-basic name
and a duplicated basic land. -/
theorem C6_witness :
    ((["sol ring", "forest"] : List String).Perm
      (tallyKeys ["sol ring", "Sol Ring", "forest", "forest"])) ∧
    ((okDupChunk ∈ singletonChunks
        (duplicatesList ["sol ring", "Sol Ring", "forest", "forest"]
          ["sol ring", "forest"]) ↔
      ∀ k ∈ tallyKeys ["sol ring", "Sol Ring", "forest", "forest"],
        1 < tallyCount ["sol ring", "Sol Ring", "forest", "forest"] k →
          k ∈ basicLands) ∧
    (∀ k ∈ tallyKeys ["sol ring", "Sol Ring", "forest", "forest"],
      1 < tallyCount ["sol ring", "Sol Ring", "forest", "forest"] k →
        k ∉ basicLands →
      (k ++ (" (x" ++
        (toString (tallyCount ["sol ring", "Sol Ring", "forest", "forest"] k) ++ ")"))) ∈
        duplicatesList ["sol ring", "Sol Ring", "forest", "forest"]
          ["sol ring", "forest"])) :=
  ⟨by decide, C6_singleton ["sol ring", "Sol Ring", "forest", "forest"]
    ["sol ring", "forest"] (by decide)⟩

/-- C1 counterexample: a commander whose legality map value at "commander"
is "not_legal" produces a report byte-identical to the "legal" case and
containing no legality notice at all, so the claimed failing verdict with a
generic not-legal notice does not exist. -/
theorem C1_counterexample :
    cardNotLegal.legalityCommander = "not_legal" ∧
    sampleCard.legalityCommander = "legal" ∧
    validateChunks cardNotLegal ["a"] ["a"] = validateChunks sampleCard ["a"] ["a"] ∧
    banChunk ∉ validateChunks cardNotLegal ["a"] ["a"] :=
  ⟨rfl, rfl, by decide, by decide⟩

/-- C1 amended: the commander-legality check is two-state, not tri-state:
the value "banned" produces the explicit ban notice, and every other value
(legal, not_legal, restricted, unknown, missing key) produces no legality
notice, yielding a report identical to the "legal" case. -/
theorem C1_amended_legality (c : Card) (ns o : List String) :
    (banChunk ∈ validateChunks c ns o ↔ c.legalityCommander = "banned") ∧
    (c.legalityCommander ≠ "banned" →
      validateChunks c ns o =
        validateChunks { c with legalityCommander := "legal" } ns o) := by
  refine ⟨mem_banChunk_iff c ns o, fun hne => ?_⟩
  have hlegal : ({ c with legalityCommander := "legal" } : Card).legalityCommander
      = "legal" := rfl
  have hno : ¬(({ c with legalityCommander := "legal" } : Card).legalityCommander
      = "banned") := by
    rw [hlegal]
    decide
  unfold validateChunks
  rw [if_neg hne, if_neg hno]
  rfl

/-- Witness for the amended C1 at a not_legal commander. -/
theorem C1_amended_witness :
    cardNotLegal.legalityCommander ≠ "banned" ∧
    validateChunks cardNotLegal ["a"] ["a"] =
      validateChunks { cardNotLegal with legalityCommander := "legal" } ["a"] ["a"] :=
  ⟨by decide, (C1_amended_legality cardNotLegal ["a"] ["a"]).2 (by decide)⟩

/-- C3 counterexample: two calls with identical commander name, identical
raw decklist and an identical resolver can produce reports that are not
byte-identical: both ["a", "b"] and ["b", "a"] are valid enumeration
orders of the tally's keys (Go map iteration order is unspecified), and
they order the singleton offending-entries list differently. -/
theorem C3_counterexample :
    (["a", "b"] : List String).Perm (tallyKeys (parseDecklist none "a\na\nb\nb")) ∧
    (["b", "a"] : List String).Perm (tallyKeys (parseDecklist none "a\na\nb\nb")) ∧
    handleValidateDeck sampleResolver (some "cmdr") (some "a\na\nb\nb") none ["a", "b"] ≠
      handleValidateDeck sampleResolver (some "cmdr") (some "a\na\nb\nb") none ["b", "a"] :=
  ⟨by decide, by decide, by decide⟩

/-- C3 amended: for identical inputs and resolver data the report is
deterministic up to the unspecified map enumeration order: the same order
gives byte-identical output, and any two valid orders give reports whose
chunks — and in particular whose singleton offending-entries lists — are
permutations of each other. -/
theorem C3_amended_order (c : Card) (names o1 o2 : List String) (h : o1.Perm o2) :
    (duplicatesList names o1).Perm (duplicatesList names o2) ∧
    (validateChunks c names o1).Perm (validateChunks c names o2) ∧
    (o1 = o2 → String.join (validateChunks c names o1) =
      String.join (validateChunks c names o2)) :=
  ⟨duplicatesList_perm names o1 o2 h, validateChunks_perm c names o1 o2 h,
    fun he => by rw [he]⟩

/-- Witness for the amended C3 at a deck with two duplicated names. -/
theorem C3_amended_witness :
    ((["a", "b"] : List String).Perm ["b", "a"]) ∧
    ((duplicatesList ["a", "a", "b", "b"] ["a", "b"]).Perm
      (duplicatesList ["a", "a", "b", "b"] ["b", "a"]) ∧
    (validateChunks sampleCard ["a", "a", "b", "b"] ["a", "b"]).Perm
      (validateChunks sampleCard ["a", "a", "b", "b"] ["b", "a"]) ∧
    ((["a", "b"] : List String) = ["b", "a"] →
      String.join (validateChunks sampleCard ["a", "a", "b", "b"] ["a", "b"]) =
        String.join (validateChunks sampleCard ["a", "a", "b", "b"] ["b", "a"]))) :=
  ⟨by decide, C3_amended_order sampleCard ["a", "a", "b", "b"] ["a", "b"] ["b", "a"]
    (by decide)⟩

/-- C4 counterexample: an empty raw decklist parses to zero entries, yet
the call does not surface an input error: the commander is resolved and a
full report is returned (whose deck-size check fails reporting 0). -/
theorem C4_counterexample :
    parseDecklist none "" = [] ∧
    handleValidateDeck sampleResolver (some "cmdr") (some "") none [] =
      ToolResult.text (String.join (validateChunks sampleCard [] [])) ∧
    (handleValidateDeck sampleResolver (some "cmdr") (some "") none []).isError = false :=
  ⟨rfl, rfl, rfl⟩

/-- C4 amended: a raw decklist that parses to zero entries is not surfaced
as an input error: the engine proceeds, resolves the commander, and
returns a full report in which the observed count 0 is reported, the
deck-size check fails, and the singleton check passes; only a missing
request argument is surfaced immediately as an error. -/
theorem C4_amended_empty (resolve : String → Except String Card)
    (cname raw : String) (decklistJson : Option Json) (order : List String) (c : Card)
    (hres : resolve cname = Except.ok c) (h0 : parseDecklist decklistJson raw = []) :
    handleValidateDeck resolve (some cname) (some raw) decklistJson order =
      ToolResult.text (String.join (validateChunks c [] order)) ∧
    ("**Deck Size:** " ++ (toString (0 : Nat) ++ " cards ")) ∈ validateChunks c [] order ∧
    failSizeChunk ∈ validateChunks c [] order ∧
    okDupChunk ∈ singletonChunks (duplicatesList [] order) ∧
    (∀ d j o2, handleValidateDeck resolve none d j o2 =
      ToolResult.error "required argument commander not found") := by
  have hdup : duplicatesList [] order = [] := by
    unfold duplicatesList
    rw [List.filterMap_eq_nil_iff]
    intro k _
    unfold dupEntry
    rw [if_neg (by simp [tallyCount])]
  refine ⟨?_, ?_, ?_, ?_, fun d j o2 => rfl⟩
  · simp [handleValidateDeck, hres, h0]
  · unfold validateChunks deckSizeChunks
    simp [List.mem_append]
  · exact (mem_failSizeChunk_iff c [] order).2 ⟨by decide, by decide⟩
  · simp [singletonChunks, hdup]

/-- Witness for the amended C4 at an empty raw decklist. -/
theorem C4_amended_witness :
    sampleResolver "cmdr" = Except.ok sampleCard ∧
    parseDecklist none "" = [] ∧
    (handleValidateDeck sampleResolver (some "cmdr") (some "") none [] =
      ToolResult.text (String.join (validateChunks sampleCard [] [])) ∧
    ("**Deck Size:** " ++ (toString (0 : Nat) ++ " cards ")) ∈
      validateChunks sampleCard [] [] ∧
    failSizeChunk ∈ validateChunks sampleCard [] [] ∧
    okDupChunk ∈ singletonChunks (duplicatesList [] []) ∧
    (∀ d j o2, handleValidateDeck sampleResolver none d j o2 =
      ToolResult.error "required argument commander not found")) :=
  ⟨rfl, rfl, C4_amended_empty sampleResolver "cmdr" "" none [] sampleCard rfl rfl⟩

/-- C10: whenever the commander name resolves to a card — including a
banned or ineligible one, since the resolved card is unconstrained here —
the call returns a normal text report whose chunks always include the
deck-size result and the singleton-rule section; a failed commander
resolution (and nothing else, once both arguments are present) makes the
call return an error result instead. -/
theorem C10_report_shape (resolve : String → Except String Card)
    (cname raw : String) (decklistJson : Option Json) (order : List String) :
    (∀ c, resolve cname = Except.ok c →
      handleValidateDeck resolve (some cname) (some raw) decklistJson order =
        ToolResult.text (String.join
          (validateChunks c (parseDecklist decklistJson raw) order)) ∧
      ("**Deck Size:** " ++ (toString (parseDecklist decklistJson raw).length ++
        " cards ")) ∈ validateChunks c (parseDecklist decklistJson raw) order ∧
      singletonHeaderChunk ∈ validateChunks c (parseDecklist decklistJson raw) order) ∧
    (∀ e, resolve cname = Except.error e →
      handleValidateDeck resolve (some cname) (some raw) decklistJson order =
        ToolResult.error ("Commander card not found: " ++ e)) := by
  constructor
  · intro c hres
    refine ⟨by simp [handleValidateDeck, hres], ?_, ?_⟩
    · unfold validateChunks deckSizeChunks
      simp [List.mem_append]
    · unfold validateChunks singletonChunks
      simp [List.mem_append]
  · intro e hres
    simp [handleValidateDeck, hres]

/-- Witness for C10 at a resolving and a non-resolving commander name. -/
theorem C10_witness :
    sampleResolver "cmdr" = Except.ok sampleCard ∧
    (handleValidateDeck sampleResolver (some "cmdr") (some "x") none [] =
      ToolResult.text (String.join
        (validateChunks sampleCard (parseDecklist none "x") [])) ∧
    ("**Deck Size:** " ++ (toString (parseDecklist none "x").length ++ " cards ")) ∈
      validateChunks sampleCard (parseDecklist none "x") [] ∧
    singletonHeaderChunk ∈ validateChunks sampleCard (parseDecklist none "x") []) :=
  ⟨rfl, (C10_report_shape sampleResolver "cmdr" "x" none []).1 sampleCard rfl⟩
